import Mathlib

/-!
Verification of the Multi-Domain Intelligence Platform data layer.

This file gives a shallow embedding of the repository's service layer
(`services/auth_manager.py`, `services/security_service.py`,
`services/dataset_service.py`, `services/it_service.py`, built on
`services/database_manager.py` over SQLite), and proves the specified
properties about it.

Modelling conventions:
* SQLite tables become lists of records plus the AUTOINCREMENT counter
  (`nextId`); every row carries the store-assigned primary `id`.
* SQLite dynamic values appearing in CSV cells and TEXT columns are
  modelled by `PyVal` (the claims only exercise integer- and
  string-valued cells); `ORDER BY` is a stable sort under the SQLite
  value order (numbers before text, text by byte order).
* Python exceptions become `Except`/`Option` results; an `Except` error
  from a bulk import carries the table state at the moment of the raise,
  because `DatabaseManager.execute` commits after every single statement.
* The numeric `AVG` is modelled over `ℚ`.
-/

/-- Python-level dynamic value as it appears in CSV cells, service-call
arguments and SQLite columns. The repository's data only exercises
integer-valued and string-valued cells, so those are the two cases. -/
inductive PyVal where
  | pyInt (n : Int)
  | pyStr (s : String)
deriving DecidableEq, Repr

/-- Value of a run of decimal digits, `none` on any non-digit character. -/
def digitsVal (acc : Nat) : List Char → Option Nat
  | [] => some acc
  | c :: cs => if c.isDigit then digitsVal (acc * 10 + (c.toNat - 48)) cs else none

/-- Model of Python `int` applied to a string: an optional sign followed by
a non-empty run of decimal digits (surrounding whitespace not modelled);
any other string raises `ValueError` (`none`). -/
def strToInt : List Char → Option Int
  | [] => none
  | '-' :: cs =>
    match cs with
    | [] => none
    | _ => (digitsVal 0 cs).map (fun n => -(n : Int))
  | '+' :: cs =>
    match cs with
    | [] => none
    | _ => (digitsVal 0 cs).map (fun n => (n : Int))
  | cs => (digitsVal 0 cs).map (fun n => (n : Int))

/-- Python `int(x)`: identity on integers; on strings, decimal parse,
raising (`none`) when the string is not an integer literal. -/
def pyIntCoerce : PyVal → Option Int
  | .pyInt n => some n
  | .pyStr s => strToInt s.data

/-- Lexicographic order on character lists, modelling SQLite's byte-order
comparison of TEXT values (UTF-8 byte order agrees with code-point order). -/
def charsLe : List Char → List Char → Bool
  | [], _ => true
  | _ :: _, [] => false
  | a :: as, b :: bs => if a < b then true else if b < a then false else charsLe as bs

/-- SQLite value comparison used by `ORDER BY`: numeric values sort before
text, numerics numerically, text by byte order. -/
def PyVal.le : PyVal → PyVal → Bool
  | .pyInt a, .pyInt b => decide (a ≤ b)
  | .pyInt _, .pyStr _ => true
  | .pyStr _, .pyInt _ => false
  | .pyStr a, .pyStr b => charsLe a.data b.data

theorem charsLe_total : ∀ a b, charsLe a b = true ∨ charsLe b a = true
  | [], _ => by left; rfl
  | _ :: _, [] => by right; rfl
  | a :: as, b :: bs => by
    rcases lt_trichotomy a b with h | h | h
    · left; simp [charsLe, h]
    · subst h
      rcases charsLe_total as bs with ih | ih
      · left; simp [charsLe, ih, lt_irrefl]
      · right; simp [charsLe, ih, lt_irrefl]
    · right; simp [charsLe, h]

theorem charsLe_trans :
    ∀ a b c, charsLe a b = true → charsLe b c = true → charsLe a c = true
  | [], _, _, _, _ => rfl
  | _ :: _, [], _, hab, _ => by simp [charsLe] at hab
  | _ :: _, _ :: _, [], _, hbc => by simp [charsLe] at hbc
  | a :: as, b :: bs, c :: cs, hab, hbc => by
    rcases lt_trichotomy a b with h1 | h1 | h1
    · rcases lt_trichotomy b c with h2 | h2 | h2
      · simp [charsLe, lt_trans h1 h2]
      · subst h2; simp [charsLe, h1]
      · exfalso; simp [charsLe, h2, asymm h2] at hbc
    · subst h1
      rcases lt_trichotomy a c with h2 | h2 | h2
      · simp [charsLe, h2]
      · subst h2
        simp only [charsLe, lt_irrefl, if_false] at hab hbc ⊢
        exact charsLe_trans as bs cs hab hbc
      · exfalso; simp [charsLe, h2, asymm h2] at hbc
    · exfalso; simp [charsLe, h1, asymm h1] at hab

theorem pyLe_total (a b : PyVal) : PyVal.le a b = true ∨ PyVal.le b a = true := by
  cases a with
  | pyInt m =>
    cases b with
    | pyInt n => simpa [PyVal.le] using le_total m n
    | pyStr s => left; rfl
  | pyStr s =>
    cases b with
    | pyInt n => right; rfl
    | pyStr t => exact charsLe_total s.data t.data

theorem pyLe_trans (a b c : PyVal) (hab : PyVal.le a b = true)
    (hbc : PyVal.le b c = true) : PyVal.le a c = true := by
  cases a with
  | pyInt m =>
    cases c with
    | pyInt p =>
      cases b with
      | pyInt n =>
        simp only [PyVal.le, decide_eq_true_eq] at hab hbc ⊢
        exact le_trans hab hbc
      | pyStr s => simp [PyVal.le] at hbc
    | pyStr s => rfl
  | pyStr s =>
    cases b with
    | pyInt n => simp [PyVal.le] at hab
    | pyStr t =>
      cases c with
      | pyInt p => simp [PyVal.le] at hbc
      | pyStr u => exact charsLe_trans s.data t.data u.data hab hbc

/-- Stable sort of rows descending by a `PyVal` sort key: the meaning of
`SELECT * ... ORDER BY key DESC` in `DatabaseManager.fetchall`. -/
def ordByDesc {α : Type} (key : α → PyVal) (rows : List α) : List α :=
  rows.insertionSort (fun a b => PyVal.le (key b) (key a) = true)

/-- Grouped `COUNT(*)` by a `PyVal` key: the meaning of
`SELECT key, COUNT(*) ... GROUP BY key` (SQLite emits one output row per
distinct key value, in ascending key order). -/
def groupCounts {α : Type} [DecidableEq α] (key : α → PyVal) (rows : List α) :
    List (PyVal × Nat) :=
  ((rows.map key).dedup.insertionSort (fun a b => PyVal.le a b = true)).map
    (fun k => (k, rows.countP (fun r => key r == k)))

/-- Modelled contract of the external `bcrypt` library (a third-party
collaborator, not code of this repository): `hashpw` produces an opaque
salted digest and `checkpw` verifies a password against it. The model
records the salt and the hashing key so that the round-trip law
`checkpw p (hashpw p s) = true` holds; nothing in the services ever
inspects the digest. -/
structure BcryptHash where
  salt : Nat
  key : String
deriving DecidableEq, Repr

/-- Model of `bcrypt.hashpw(password, salt)`. -/
def hashpw (password : String) (salt : Nat) : BcryptHash := ⟨salt, password⟩

/-- Model of `bcrypt.checkpw(password, hash)` on a well-formed hash. -/
def checkpw (password : String) (h : BcryptHash) : Bool := h.key == password

/-- A byte string as stored in the `password_hash` BLOB column: either the
byte encoding of a bcrypt hash, or arbitrary other bytes (on which
`bcrypt.checkpw` raises `ValueError`). -/
inductive CredBytes where
  | ofHash (h : BcryptHash)
  | junk (s : String)
deriving DecidableEq, Repr

/-- The Python value SQLite hands back for the `password_hash` column:
raw `bytes`, a `memoryview`, or a `str`. The payload records the bytes the
value denotes (for `str`, its utf-8 encoding). -/
inductive StoredCred where
  | bytesC (b : CredBytes)
  | memC (b : CredBytes)
  | strC (b : CredBytes)
deriving DecidableEq, Repr

/-- The `isinstance` normalization chain in `AuthManager.login`:
`memoryview.tobytes()` for a memoryview, `str.encode("utf-8")` for text,
identity for bytes. -/
def normalizeCred : StoredCred → CredBytes
  | .bytesC b => b
  | .memC b => b
  | .strC b => b

/-- `bcrypt.checkpw` on normalized bytes: verifies against a well-formed
hash, raises (`error`) on malformed bytes. -/
def checkpwBytes (password : String) : CredBytes → Except Unit Bool
  | .ofHash h => .ok (checkpw password h)
  | .junk _ => .error ()

/-- One row of the `users` table (schema from `AuthManager._create_table`):
auto-increment `id`, unique `username`, `password_hash` BLOB, `role`
(column default `user`). -/
structure UserRow where
  id : Nat
  username : String
  password_hash : StoredCred
  role : String
deriving DecidableEq, Repr

/-- The `users` table plus its AUTOINCREMENT counter. -/
structure UsersTable where
  rows : List UserRow
  nextId : Nat
deriving DecidableEq, Repr

/-- The dictionary `AuthManager.login` returns on success: exactly the
three fields `id`, `username`, `role`, and nothing else — in particular
no `password_hash` field exists in this type. -/
structure UserIdentity where
  id : Nat
  username : String
  role : String
deriving DecidableEq, Repr

namespace AuthManager

/-- `AuthManager.register(username, password, role)` (`role` defaults to
`"user"` at Python call sites; the model passes it explicitly). Returns
`false` leaving the table unchanged when username or password is empty, or
when the `INSERT` raises — which the UNIQUE constraint on `username` does
exactly when a row with that username already exists. On success appends
one row holding `bcrypt.hashpw(password, gensalt())`; `salt` stands for
the fresh salt drawn by `bcrypt.gensalt()` on this call. -/
def register (db : UsersTable) (username password role : String) (salt : Nat) :
    Bool × UsersTable :=
  if username = "" || password = "" then (false, db)
  else
    let hashed := hashpw password salt
    if db.rows.any (fun r => r.username == username) then (false, db)
    else
      (true,
       ⟨db.rows ++ [⟨db.nextId, username, .bytesC (.ofHash hashed), role⟩],
        db.nextId + 1⟩)

/-- `AuthManager.login(username, password)`: `None` on empty input; fetches
the first row matching the username (`fetchone`); normalizes the stored
credential to bytes; verifies with `bcrypt.checkpw`, any exception being
treated as failure; on success returns id/username/role only. -/
def login (db : UsersTable) (username password : String) : Option UserIdentity :=
  if username = "" || password = "" then none
  else
    match db.rows.find? (fun r => r.username == username) with
    | none => none
    | some row =>
      match checkpwBytes password (normalizeCred row.password_hash) with
      | .error _ => none
      | .ok b => if b then some ⟨row.id, row.username, row.role⟩ else none

end AuthManager

/-- One parsed CSV record as produced by `pandas.read_csv` + `iterrows`:
an association of column name to cell value; a missing column makes the
lookup raise `KeyError` (`none`). -/
abbrev CsvRow := List (String × PyVal)

/-- `row["column"]` on a parsed CSV record. -/
def csvGet (r : CsvRow) (c : String) : Option PyVal :=
  (r.find? (fun p => p.1 == c)).map (fun p => p.2)

/-- A bulk-import source: `none` when `pandas.read_csv` itself raises
(missing file or source unparsable as a table), otherwise the parsed
records in file order. -/
abbrev CsvSource := Option (List CsvRow)

/-- One row of the `cyber_incidents` table
(schema from `SecurityService._create_table`). -/
structure Incident where
  id : Nat
  incident_id : Int
  timestamp : PyVal
  severity : PyVal
  category : PyVal
  status : PyVal
  description : PyVal
deriving DecidableEq, Repr

/-- The `cyber_incidents` table plus its AUTOINCREMENT counter. -/
structure IncidentsTable where
  rows : List Incident
  nextId : Nat
deriving DecidableEq, Repr

namespace SecurityService

/-- Field extraction for one CSV record in `SecurityService.load_csv`, in
the evaluation order of the Python argument tuple:
`int(row["incident_id"])` first (KeyError on a missing column, ValueError
on a non-coercible cell), then the five remaining column accesses. -/
def incidentFields (r : CsvRow) :
    Option (Int × PyVal × PyVal × PyVal × PyVal × PyVal) := do
  let iid ← csvGet r "incident_id"
  let iidI ← pyIntCoerce iid
  let ts ← csvGet r "timestamp"
  let sev ← csvGet r "severity"
  let cat ← csvGet r "category"
  let st ← csvGet r "status"
  let desc ← csvGet r "description"
  pure (iidI, ts, sev, cat, st, desc)

/-- The row-by-row insert loop of `SecurityService.load_csv`: each `INSERT`
is committed individually by `DatabaseManager.execute`, so an exception on
a record aborts the call (`error`) with the rows already inserted still in
the table — the carried state is the table at the moment of the raise. -/
def load_csv_rows (db : IncidentsTable) :
    List CsvRow → Except IncidentsTable IncidentsTable
  | [] => .ok db
  | r :: rs =>
    match incidentFields r with
    | none => .error db
    | some (iid, ts, sev, cat, st, desc) =>
      load_csv_rows
        ⟨db.rows ++ [⟨db.nextId, iid, ts, sev, cat, st, desc⟩], db.nextId + 1⟩ rs

/-- `SecurityService.load_csv(path)`: `pandas.read_csv` first (its
exception propagates with no insert), then the per-record insert loop. -/
def load_csv (db : IncidentsTable) (source : CsvSource) :
    Except IncidentsTable IncidentsTable :=
  match source with
  | none => .error db
  | some rows => load_csv_rows db rows

/-- `SecurityService.create_incident`: coerces `incident_id` with `int()`
(raising on failure), then inserts one row. -/
def create_incident (db : IncidentsTable)
    (incident_id timestamp severity category status description : PyVal) :
    Except Unit IncidentsTable :=
  match pyIntCoerce incident_id with
  | none => .error ()
  | some n =>
    .ok ⟨db.rows ++
          [⟨db.nextId, n, timestamp, severity, category, status, description⟩],
         db.nextId + 1⟩

/-- `SecurityService.update_incident`: full-row `UPDATE ... WHERE id=?`;
rows with a different primary id are untouched, and a non-matching id
updates nothing. -/
def update_incident (db : IncidentsTable) (id : Nat)
    (incident_id timestamp severity category status description : PyVal) :
    Except Unit IncidentsTable :=
  match pyIntCoerce incident_id with
  | none => .error ()
  | some n =>
    .ok ⟨db.rows.map (fun r =>
           if r.id = id then
             ⟨r.id, n, timestamp, severity, category, status, description⟩
           else r),
         db.nextId⟩

/-- `SecurityService.delete_incident`: `DELETE FROM cyber_incidents WHERE
id=?`; the AUTOINCREMENT counter is not reset. -/
def delete_incident (db : IncidentsTable) (id : Nat) : IncidentsTable :=
  ⟨db.rows.filter (fun r => !(r.id == id)), db.nextId⟩

/-- `SecurityService.all()`: `SELECT * FROM cyber_incidents ORDER BY
timestamp DESC`. Read-only, so the table state is returned unchanged. -/
def all (db : IncidentsTable) : List Incident × IncidentsTable :=
  (ordByDesc (fun r => r.timestamp) db.rows, db)

/-- `SecurityService.total_count()`: `SELECT COUNT(*) ...`. -/
def total_count (db : IncidentsTable) : Nat × IncidentsTable :=
  (db.rows.length, db)

/-- `SecurityService.open_count()`: `COUNT(*)` over
`status IN ('Open', 'In Progress')`. -/
def open_count (db : IncidentsTable) : Nat × IncidentsTable :=
  (db.rows.countP
     (fun r => r.status == .pyStr "Open" || r.status == .pyStr "In Progress"),
   db)

/-- `SecurityService.category_counts()`: `GROUP BY category`. -/
def category_counts (db : IncidentsTable) : List (PyVal × Nat) × IncidentsTable :=
  (groupCounts (fun r => r.category) db.rows, db)

/-- `SecurityService.severity_counts()`: `GROUP BY severity`. -/
def severity_counts (db : IncidentsTable) : List (PyVal × Nat) × IncidentsTable :=
  (groupCounts (fun r => r.severity) db.rows, db)

/-- `SecurityService.status_counts()`: `GROUP BY status`. -/
def status_counts (db : IncidentsTable) : List (PyVal × Nat) × IncidentsTable :=
  (groupCounts (fun r => r.status) db.rows, db)

end SecurityService

/-- One row of the `datasets_metadata` table
(schema from `DatasetService._create_table`). -/
structure Dataset where
  id : Nat
  dataset_id : Int
  name : PyVal
  rows : Int
  columns : Int
  uploaded_by : PyVal
  upload_date : PyVal
deriving DecidableEq, Repr

/-- The `datasets_metadata` table plus its AUTOINCREMENT counter. -/
structure DatasetsTable where
  rows : List Dataset
  nextId : Nat
deriving DecidableEq, Repr

namespace DatasetService

/-- Field extraction for one CSV record in `DatasetService.load_csv`, in
the evaluation order of the Python argument tuple: `int(row["dataset_id"])`,
`row["name"]`, `int(row["rows"])`, `int(row["columns"])`,
`row["uploaded_by"]`, `row["upload_date"]`. -/
def datasetFields (r : CsvRow) :
    Option (Int × PyVal × Int × Int × PyVal × PyVal) := do
  let did ← csvGet r "dataset_id"
  let didI ← pyIntCoerce did
  let nm ← csvGet r "name"
  let rw ← csvGet r "rows"
  let rwI ← pyIntCoerce rw
  let cl ← csvGet r "columns"
  let clI ← pyIntCoerce cl
  let ub ← csvGet r "uploaded_by"
  let ud ← csvGet r "upload_date"
  pure (didI, nm, rwI, clI, ub, ud)

/-- The row-by-row insert loop of `DatasetService.load_csv`; see
`SecurityService.load_csv_rows` for the commit-per-row semantics. -/
def load_csv_rows (db : DatasetsTable) :
    List CsvRow → Except DatasetsTable DatasetsTable
  | [] => .ok db
  | r :: rs =>
    match datasetFields r with
    | none => .error db
    | some (did, nm, rw, cl, ub, ud) =>
      load_csv_rows ⟨db.rows ++ [⟨db.nextId, did, nm, rw, cl, ub, ud⟩], db.nextId + 1⟩ rs

/-- `DatasetService.load_csv(path)`. -/
def load_csv (db : DatasetsTable) (source : CsvSource) :
    Except DatasetsTable DatasetsTable :=
  match source with
  | none => .error db
  | some rows => load_csv_rows db rows

/-- `DatasetService.create_dataset`: coerces `dataset_id`, `rows` and
`columns` with `int()` (in tuple order), then inserts one row. -/
def create_dataset (db : DatasetsTable)
    (dataset_id name rows columns uploaded_by upload_date : PyVal) :
    Except Unit DatasetsTable := do
  let did ← (pyIntCoerce dataset_id).elim (.error ()) .ok
  let rw ← (pyIntCoerce rows).elim (.error ()) .ok
  let cl ← (pyIntCoerce columns).elim (.error ()) .ok
  .ok ⟨db.rows ++ [⟨db.nextId, did, name, rw, cl, uploaded_by, upload_date⟩],
       db.nextId + 1⟩

/-- `DatasetService.update_dataset`: full-row `UPDATE ... WHERE id=?`. -/
def update_dataset (db : DatasetsTable) (id : Nat)
    (dataset_id name rows columns uploaded_by upload_date : PyVal) :
    Except Unit DatasetsTable := do
  let did ← (pyIntCoerce dataset_id).elim (.error ()) .ok
  let rw ← (pyIntCoerce rows).elim (.error ()) .ok
  let cl ← (pyIntCoerce columns).elim (.error ()) .ok
  .ok ⟨db.rows.map (fun r =>
         if r.id = id then ⟨r.id, did, name, rw, cl, uploaded_by, upload_date⟩
         else r),
       db.nextId⟩

/-- `DatasetService.delete_dataset`. -/
def delete_dataset (db : DatasetsTable) (id : Nat) : DatasetsTable :=
  ⟨db.rows.filter (fun r => !(r.id == id)), db.nextId⟩

/-- `DatasetService.all()`: `SELECT * ... ORDER BY upload_date DESC`. -/
def all (db : DatasetsTable) : List Dataset × DatasetsTable :=
  (ordByDesc (fun r => r.upload_date) db.rows, db)

/-- `DatasetService.total_count()`. -/
def total_count (db : DatasetsTable) : Nat × DatasetsTable :=
  (db.rows.length, db)

/-- `DatasetService.total_rows()`: `SELECT SUM(rows) ...`; the Python
falsy guard maps both the NULL sum of an empty table and a zero sum to 0,
which coincides with the sum itself in the empty case. -/
def total_rows (db : DatasetsTable) : Int × DatasetsTable :=
  ((db.rows.map (fun r => r.rows)).sum, db)

/-- `DatasetService.uploader_summary()`: `GROUP BY uploaded_by` with
`COUNT(*)` and `SUM(rows)` per group, ascending group key. -/
def uploader_summary (db : DatasetsTable) :
    List (PyVal × Nat × Int) × DatasetsTable :=
  (((db.rows.map (fun r => r.uploaded_by)).dedup.insertionSort
      (fun a b => PyVal.le a b = true)).map
     (fun k =>
       let grp := db.rows.filter (fun r => r.uploaded_by == k)
       (k, grp.length, (grp.map (fun r => r.rows)).sum)),
   db)

end DatasetService

/-- One row of the `it_tickets` table
(schema from `ITService._create_table`). -/
structure Ticket where
  id : Nat
  ticket_id : Int
  priority : PyVal
  description : PyVal
  status : PyVal
  assigned_to : PyVal
  created_at : PyVal
  resolution_time_hours : Int
deriving DecidableEq, Repr

/-- The `it_tickets` table plus its AUTOINCREMENT counter. -/
structure TicketsTable where
  rows : List Ticket
  nextId : Nat
deriving DecidableEq, Repr

/-- Round-half-to-even to an integer, the rounding mode of Python
`round`; non-half values go to the nearest integer. -/
def roundHalfEven (q : ℚ) : Int :=
  if q - ⌊q⌋ = 1 / 2 then (if 2 ∣ ⌊q⌋ then ⌊q⌋ else ⌊q⌋ + 1) else round q

/-- Python `round(x, 1)`: round to one decimal place, halves to even
(the float result is modelled over `ℚ`). -/
def pyRound1 (q : ℚ) : ℚ := (roundHalfEven (q * 10) : ℚ) / 10

namespace ITService

/-- Field extraction for one CSV record in `ITService.load_csv`, in the
evaluation order of the Python argument tuple: `int(row["ticket_id"])`,
then the five plain column accesses, then `int(row["resolution_time_hours"])`. -/
def ticketFields (r : CsvRow) :
    Option (Int × PyVal × PyVal × PyVal × PyVal × PyVal × Int) := do
  let tid ← csvGet r "ticket_id"
  let tidI ← pyIntCoerce tid
  let pr ← csvGet r "priority"
  let desc ← csvGet r "description"
  let st ← csvGet r "status"
  let asg ← csvGet r "assigned_to"
  let ca ← csvGet r "created_at"
  let rt ← csvGet r "resolution_time_hours"
  let rtI ← pyIntCoerce rt
  pure (tidI, pr, desc, st, asg, ca, rtI)

/-- The row-by-row insert loop of `ITService.load_csv`; see
`SecurityService.load_csv_rows` for the commit-per-row semantics. -/
def load_csv_rows (db : TicketsTable) :
    List CsvRow → Except TicketsTable TicketsTable
  | [] => .ok db
  | r :: rs =>
    match ticketFields r with
    | none => .error db
    | some (tid, pr, desc, st, asg, ca, rt) =>
      load_csv_rows
        ⟨db.rows ++ [⟨db.nextId, tid, pr, desc, st, asg, ca, rt⟩], db.nextId + 1⟩ rs

/-- `ITService.load_csv(path)`. -/
def load_csv (db : TicketsTable) (source : CsvSource) :
    Except TicketsTable TicketsTable :=
  match source with
  | none => .error db
  | some rows => load_csv_rows db rows

/-- `ITService.create_ticket`: coerces `ticket_id` and
`resolution_time_hours` with `int()` (in tuple order), then inserts. -/
def create_ticket (db : TicketsTable)
    (ticket_id priority description status assigned_to created_at
     resolution_time_hours : PyVal) : Except Unit TicketsTable := do
  let tid ← (pyIntCoerce ticket_id).elim (.error ()) .ok
  let rt ← (pyIntCoerce resolution_time_hours).elim (.error ()) .ok
  .ok ⟨db.rows ++
        [⟨db.nextId, tid, priority, description, status, assigned_to,
          created_at, rt⟩],
       db.nextId + 1⟩

/-- `ITService.update_ticket`: full-row `UPDATE ... WHERE id=?`. -/
def update_ticket (db : TicketsTable) (id : Nat)
    (ticket_id priority description status assigned_to created_at
     resolution_time_hours : PyVal) : Except Unit TicketsTable := do
  let tid ← (pyIntCoerce ticket_id).elim (.error ()) .ok
  let rt ← (pyIntCoerce resolution_time_hours).elim (.error ()) .ok
  .ok ⟨db.rows.map (fun r =>
         if r.id = id then
           ⟨r.id, tid, priority, description, status, assigned_to,
            created_at, rt⟩
         else r),
       db.nextId⟩

/-- `ITService.delete_ticket`. -/
def delete_ticket (db : TicketsTable) (id : Nat) : TicketsTable :=
  ⟨db.rows.filter (fun r => !(r.id == id)), db.nextId⟩

/-- `ITService.all()`: `SELECT * ... ORDER BY created_at DESC`. -/
def all (db : TicketsTable) : List Ticket × TicketsTable :=
  (ordByDesc (fun r => r.created_at) db.rows, db)

/-- `ITService.total_count()`. -/
def total_count (db : TicketsTable) : Nat × TicketsTable :=
  (db.rows.length, db)

/-- `ITService.open_count()`: `COUNT(*)` over
`status IN ('Open', 'In Progress')`. -/
def open_count (db : TicketsTable) : Nat × TicketsTable :=
  (db.rows.countP
     (fun r => r.status == .pyStr "Open" || r.status == .pyStr "In Progress"),
   db)

/-- `SELECT AVG(resolution_time_hours) FROM it_tickets`: NULL (`none`) on
an empty table, otherwise the exact rational mean. -/
def avgRes (db : TicketsTable) : Option ℚ :=
  match db.rows with
  | [] => none
  | _ =>
    some ((db.rows.map (fun t => (t.resolution_time_hours : ℚ))).sum
            / db.rows.length)

/-- `ITService.avg_resolution_time()`: the guard
`if result and result["avg_res"]` maps both the NULL average of an empty
table and an exactly-zero average to 0; otherwise `round(avg, 1)`. -/
def avg_resolution_time (db : TicketsTable) : ℚ × TicketsTable :=
  (match avgRes db with
   | none => 0
   | some a => if a = 0 then 0 else pyRound1 a,
   db)

/-- `ITService.priority_counts()`: `GROUP BY priority`. -/
def priority_counts (db : TicketsTable) : List (PyVal × Nat) × TicketsTable :=
  (groupCounts (fun r => r.priority) db.rows, db)

/-- `ITService.status_counts()`: `GROUP BY status`. -/
def status_counts (db : TicketsTable) : List (PyVal × Nat) × TicketsTable :=
  (groupCounts (fun r => r.status) db.rows, db)

/-- `ITService.assignee_summary()`: `GROUP BY assigned_to` with `COUNT(*)`
and `AVG(resolution_time_hours)` per group, `ORDER BY ticket_count DESC`
(stable over the ascending group-key emission order). -/
def assignee_summary (db : TicketsTable) :
    List (PyVal × Nat × ℚ) × TicketsTable :=
  ((((db.rows.map (fun t => t.assigned_to)).dedup.insertionSort
       (fun a b => PyVal.le a b = true)).map
      (fun k =>
        let grp := db.rows.filter (fun t => t.assigned_to == k)
        (k, grp.length,
         (grp.map (fun t => (t.resolution_time_hours : ℚ))).sum / grp.length))).insertionSort
     (fun a b => b.2.1 ≤ a.2.1),
   db)

/-- `ITService.slowest_assignee()`: the assignee groups ordered
`avg_res DESC`, truncated by `LIMIT 1`. -/
def slowest_assignee (db : TicketsTable) : List (PyVal × ℚ) × TicketsTable :=
  ((((db.rows.map (fun t => t.assigned_to)).dedup.insertionSort
       (fun a b => PyVal.le a b = true)).map
      (fun k =>
        let grp := db.rows.filter (fun t => t.assigned_to == k)
        (k, (grp.map (fun t => (t.resolution_time_hours : ℚ))).sum / grp.length))).insertionSort
     (fun a b => b.2 ≤ a.2) |>.take 1,
   db)

end ITService

/-- The users-table row `register` appends on success. -/
def registeredRow (db : UsersTable) (u p role : String) (salt : Nat) : UserRow :=
  ⟨db.nextId, u, .bytesC (.ofHash (hashpw p salt)), role⟩

/-- C2: `register` returns false leaving the table unchanged on an empty
username, an empty password, or an existing username; on success it
appends exactly one row carrying the salted hash. Registering the same
non-empty pair twice: the first call succeeds, the second fails leaving
the table of the first call, and exactly one row carries that username. -/
theorem C2_register_spec (db : UsersTable) (u p role : String) (s1 s2 : Nat)
    (hu : u ≠ "") (hp : p ≠ "")
    (h0 : db.rows.countP (fun r => r.username == u) = 0) :
    (∀ (d : UsersTable) (pw rl : String) (s : Nat),
        AuthManager.register d "" pw rl s = (false, d)) ∧
    (∀ (d : UsersTable) (un rl : String) (s : Nat),
        AuthManager.register d un "" rl s = (false, d)) ∧
    (∀ (d : UsersTable) (un pw rl : String) (s : Nat),
        d.rows.countP (fun r => r.username == un) ≠ 0 →
        AuthManager.register d un pw rl s = (false, d)) ∧
    AuthManager.register db u p role s1 =
      (true, ⟨db.rows ++ [registeredRow db u p role s1], db.nextId + 1⟩) ∧
    AuthManager.register
        ⟨db.rows ++ [registeredRow db u p role s1], db.nextId + 1⟩ u p role s2 =
      (false, ⟨db.rows ++ [registeredRow db u p role s1], db.nextId + 1⟩) ∧
    (db.rows ++ [registeredRow db u p role s1]).countP
        (fun r => r.username == u) = 1 := by
  have hnone : ∀ r ∈ db.rows, ¬(r.username == u) = true :=
    List.countP_eq_zero.mp h0
  have hany : db.rows.any (fun r => r.username == u) = false := by
    rw [Bool.eq_false_iff]
    intro hcontra
    obtain ⟨x, hx, hxu⟩ := List.any_eq_true.mp hcontra
    exact hnone x hx hxu
  refine ⟨?_, ?_, ?_, ?_, ?_, ?_⟩
  · intro d pw rl s; simp [AuthManager.register]
  · intro d un rl s; simp [AuthManager.register]
  · intro d un pw rl s hcnt
    have : ∃ x ∈ d.rows, (x.username == un) = true := by
      by_contra hc
      push_neg at hc
      exact hcnt (List.countP_eq_zero.mpr (by simpa using hc))
    have hany2 : d.rows.any (fun r => r.username == un) = true :=
      List.any_eq_true.mpr this
    simp [AuthManager.register, hany2]
  · simp [AuthManager.register, hu, hp, hany, registeredRow]
  · have hany3 : (db.rows ++ [registeredRow db u p role s1]).any
        (fun r => r.username == u) = true := by
      refine List.any_eq_true.mpr ⟨registeredRow db u p role s1, ?_, ?_⟩
      · simp
      · simp [registeredRow]
    simp [AuthManager.register, hu, hp, hany3]
  · rw [List.countP_append, h0]
    simp [registeredRow]

/-- C2 witness: the double-registration scenario at a concrete input. -/
theorem C2_register_spec_witness :
    AuthManager.register ⟨[], 1⟩ "alice" "pw" "user" 7 =
      (true, ⟨[registeredRow ⟨[], 1⟩ "alice" "pw" "user" 7], 2⟩) ∧
    AuthManager.register ⟨[registeredRow ⟨[], 1⟩ "alice" "pw" "user" 7], 2⟩
        "alice" "pw" "user" 9 =
      (false, ⟨[registeredRow ⟨[], 1⟩ "alice" "pw" "user" 7], 2⟩) := by
  have h := C2_register_spec ⟨[], 1⟩ "alice" "pw" "user" 7 9
    (by decide) (by decide) (by decide)
  exact ⟨h.2.2.2.1, h.2.2.2.2.1⟩

/-- C3: after a successful `register(username, password)`, `login` with the
same pair succeeds, returning the `UserIdentity` of the new row — a value
of a type with exactly the fields `id`, `username` and `role`, so the
stored password hash cannot occur in any login result. -/
theorem C3_login_after_register (db db2 : UsersTable) (u p role : String)
    (salt : Nat)
    (h : AuthManager.register db u p role salt = (true, db2)) :
    AuthManager.login db2 u p = some ⟨db.nextId, u, role⟩ := by
  by_cases hu : u = ""
  · simp [AuthManager.register, hu] at h
  · by_cases hp : p = ""
    · simp [AuthManager.register, hu, hp] at h
    · by_cases ha : db.rows.any (fun r => r.username == u) = true
      · simp [AuthManager.register, hu, hp, ha] at h
      · have ha2 : db.rows.any (fun r => r.username == u) = false := by
          simpa using ha
        simp only [AuthManager.register, hu, hp, ha2, decide_False,
          Bool.or_self, Bool.false_eq_true, if_false, Prod.mk.injEq,
          true_and] at h
        have h1 : db.rows.find? (fun r => r.username == u) = none := by
          rw [List.find?_eq_none]
          intro x hx hxu
          exact ha (List.any_eq_true.mpr ⟨x, hx, hxu⟩)
        rw [← h]
        simp [AuthManager.login, hu, hp, h1, registeredRow, checkpwBytes,
          normalizeCred, checkpw, hashpw]

/-- C3 witness: concrete register-then-login round trip. -/
theorem C3_login_after_register_witness :
    AuthManager.login ⟨[registeredRow ⟨[], 1⟩ "alice" "pw" "user" 5], 2⟩
      "alice" "pw" = some ⟨1, "alice", "user"⟩ :=
  C3_login_after_register ⟨[], 1⟩ _ "alice" "pw" "user" 5 (by decide)

/-- C4: `login` returns the single absent value `none` for every failure
cause — empty username, empty password, unknown username, a stored
credential that verifies false, and a stored credential on which
verification raises — and the `isinstance` chain normalizes raw bytes,
memoryview and text alike to the same byte string before comparison, so
every failure is the same `none` at the interface. (`login` is a total
function of the model, so no failure can escape as an exception.) -/
theorem C4_login_failures (db : UsersTable) (u p : String) :
    (AuthManager.login db "" p = none) ∧
    (AuthManager.login db u "" = none) ∧
    ((∀ r ∈ db.rows, r.username ≠ u) → AuthManager.login db u p = none) ∧
    (∀ row, db.rows.find? (fun r => r.username == u) = some row →
      checkpwBytes p (normalizeCred row.password_hash) = .ok false →
      AuthManager.login db u p = none) ∧
    (∀ row, db.rows.find? (fun r => r.username == u) = some row →
      checkpwBytes p (normalizeCred row.password_hash) = .error () →
      AuthManager.login db u p = none) ∧
    (∀ b : CredBytes, normalizeCred (.bytesC b) = b ∧
      normalizeCred (.memC b) = b ∧ normalizeCred (.strC b) = b) := by
  refine ⟨by simp [AuthManager.login], by simp [AuthManager.login], ?_, ?_, ?_,
    fun b => ⟨rfl, rfl, rfl⟩⟩
  · intro hnone
    have h1 : db.rows.find? (fun r => r.username == u) = none := by
      rw [List.find?_eq_none]
      intro x hx hxu
      exact hnone x hx (by simpa using hxu)
    by_cases hu : u = ""
    · simp [AuthManager.login, hu]
    · by_cases hp : p = ""
      · simp [AuthManager.login, hp]
      · simp [AuthManager.login, hu, hp, h1]
  · intro row hfind hchk
    by_cases hu : u = ""
    · simp [AuthManager.login, hu]
    · by_cases hp : p = ""
      · simp [AuthManager.login, hp]
      · simp [AuthManager.login, hu, hp, hfind, hchk]
  · intro row hfind hchk
    by_cases hu : u = ""
    · simp [AuthManager.login, hu]
    · by_cases hp : p = ""
      · simp [AuthManager.login, hp]
      · simp [AuthManager.login, hu, hp, hfind, hchk]

/-- C4 witness: the unknown-username, wrong-password and malformed-stored-
credential failures all produce the same `none` on a concrete table. -/
theorem C4_login_failures_witness :
    AuthManager.login
      ⟨[⟨1, "alice", .strC (.junk "notahash"), "user"⟩,
        ⟨2, "bob", .memC (.ofHash (hashpw "secret" 3)), "user"⟩], 3⟩
      "carol" "pw" = none ∧
    AuthManager.login
      ⟨[⟨1, "alice", .strC (.junk "notahash"), "user"⟩,
        ⟨2, "bob", .memC (.ofHash (hashpw "secret" 3)), "user"⟩], 3⟩
      "bob" "wrong" = none ∧
    AuthManager.login
      ⟨[⟨1, "alice", .strC (.junk "notahash"), "user"⟩,
        ⟨2, "bob", .memC (.ofHash (hashpw "secret" 3)), "user"⟩], 3⟩
      "alice" "pw" = none := by
  refine ⟨(C4_login_failures _ "carol" "pw").2.2.1 ?_,
    (C4_login_failures _ "bob" "wrong").2.2.2.1
      ⟨2, "bob", .memC (.ofHash (hashpw "secret" 3)), "user"⟩ ?_ ?_,
    (C4_login_failures _ "alice" "pw").2.2.2.2.1
      ⟨1, "alice", .strC (.junk "notahash"), "user"⟩ ?_ ?_⟩
  · decide
  · decide
  · rfl
  · decide
  · rfl

/-- C9: every aggregate and lookup query of every Record Access unit
returns the store state unchanged — they execute only `SELECT` statements
through `DatabaseManager.fetchall`/`fetchone`, which never mutate. -/
theorem C9_queries_read_only (si : IncidentsTable) (sd : DatasetsTable)
    (st : TicketsTable) :
    (SecurityService.all si).2 = si ∧
    (SecurityService.total_count si).2 = si ∧
    (SecurityService.open_count si).2 = si ∧
    (SecurityService.category_counts si).2 = si ∧
    (SecurityService.severity_counts si).2 = si ∧
    (SecurityService.status_counts si).2 = si ∧
    (DatasetService.all sd).2 = sd ∧
    (DatasetService.total_count sd).2 = sd ∧
    (DatasetService.total_rows sd).2 = sd ∧
    (DatasetService.uploader_summary sd).2 = sd ∧
    (ITService.all st).2 = st ∧
    (ITService.total_count st).2 = st ∧
    (ITService.open_count st).2 = st ∧
    (ITService.avg_resolution_time st).2 = st ∧
    (ITService.priority_counts st).2 = st ∧
    (ITService.status_counts st).2 = st ∧
    (ITService.assignee_summary st).2 = st ∧
    (ITService.slowest_assignee st).2 = st :=
  ⟨rfl, rfl, rfl, rfl, rfl, rfl, rfl, rfl, rfl, rfl, rfl, rfl, rfl, rfl, rfl,
   rfl, rfl, rfl⟩

/-- C10: `avg_resolution_time` is total (never raises); it returns 0 on an
empty table (NULL average), 0 whenever the average is exactly zero (the
Python falsy guard), and otherwise the rational mean rounded to one
decimal place. -/
theorem C10_avg_resolution_time_spec (db : TicketsTable) (a : ℚ) :
    (db.rows = [] → (ITService.avg_resolution_time db).1 = 0) ∧
    (ITService.avgRes db = some 0 → (ITService.avg_resolution_time db).1 = 0) ∧
    (ITService.avgRes db = some a → a ≠ 0 →
      (ITService.avg_resolution_time db).1 = pyRound1 a) := by
  refine ⟨?_, ?_, ?_⟩
  · intro h
    simp [ITService.avg_resolution_time, ITService.avgRes, h]
  · intro h
    simp [ITService.avg_resolution_time, h]
  · intro h ha
    simp [ITService.avg_resolution_time, h, ha]

/-- C10 witness: empty table gives 0; an all-zero table gives 0; tickets
resolved in 10 and 15 hours average to 12.5. -/
theorem C10_avg_resolution_time_spec_witness :
    (ITService.avg_resolution_time ⟨[], 1⟩).1 = 0 ∧
    (ITService.avg_resolution_time
        ⟨[⟨1, 2000, .pyStr "Low", .pyStr "d", .pyStr "Open", .pyStr "A",
           .pyStr "2024-01-15 10:00:00", 0⟩], 2⟩).1 = 0 ∧
    (ITService.avg_resolution_time
        ⟨[⟨1, 2000, .pyStr "Low", .pyStr "d", .pyStr "Resolved", .pyStr "A",
           .pyStr "2024-01-15 10:00:00", 10⟩,
          ⟨2, 2001, .pyStr "High", .pyStr "e", .pyStr "Resolved", .pyStr "B",
           .pyStr "2024-01-16 10:00:00", 15⟩], 3⟩).1 = 25 / 2 := by
  refine ⟨(C10_avg_resolution_time_spec ⟨[], 1⟩ 0).1 rfl,
    (C10_avg_resolution_time_spec _ 0).2.1 ?_, ?_⟩
  · show ITService.avgRes _ = some 0
    simp [ITService.avgRes]
  · rw [(C10_avg_resolution_time_spec _ (25 / 2)).2.2 ?_ (by norm_num)]
    · show pyRound1 (25 / 2) = 25 / 2
      have h125 : (25 : ℚ) / 2 * 10 = (125 : ℤ) := by norm_num
      rw [pyRound1, roundHalfEven, h125]
      norm_num
    · show ITService.avgRes _ = some (25 / 2)
      simp [ITService.avgRes]
      norm_num

theorem ordByDesc_perm {α : Type} (key : α → PyVal) (rows : List α) :
    (ordByDesc key rows).Perm rows :=
  List.perm_insertionSort _ rows

theorem ordByDesc_sorted {α : Type} (key : α → PyVal) (rows : List α) :
    List.Sorted (fun a b => PyVal.le (key b) (key a) = true)
      (ordByDesc key rows) := by
  haveI : IsTotal α (fun a b => PyVal.le (key b) (key a) = true) :=
    ⟨fun a b => pyLe_total (key b) (key a)⟩
  haveI : IsTrans α (fun a b => PyVal.le (key b) (key a) = true) :=
    ⟨fun a b c hab hbc => pyLe_trans (key c) (key b) (key a) hbc hab⟩
  exact List.sorted_insertionSort _ rows

/-- C6: each unit's `all()` returns every row of its table (a permutation
of the stored rows) in descending order of its sort key — incidents by
`timestamp`, datasets by `upload_date`, tickets by `created_at` — under
the SQLite value order. -/
theorem C6_all_ordered (si : IncidentsTable) (sd : DatasetsTable)
    (st : TicketsTable) :
    ((SecurityService.all si).1.Perm si.rows ∧
      List.Sorted (fun a b => PyVal.le b.timestamp a.timestamp = true)
        (SecurityService.all si).1) ∧
    ((DatasetService.all sd).1.Perm sd.rows ∧
      List.Sorted (fun a b => PyVal.le b.upload_date a.upload_date = true)
        (DatasetService.all sd).1) ∧
    ((ITService.all st).1.Perm st.rows ∧
      List.Sorted (fun a b => PyVal.le b.created_at a.created_at = true)
        (ITService.all st).1) :=
  ⟨⟨ordByDesc_perm _ si.rows, ordByDesc_sorted (fun r => r.timestamp) si.rows⟩,
   ⟨ordByDesc_perm _ sd.rows, ordByDesc_sorted (fun r => r.upload_date) sd.rows⟩,
   ⟨ordByDesc_perm _ st.rows, ordByDesc_sorted (fun r => r.created_at) st.rows⟩⟩

theorem groupCounts_mem {α : Type} [DecidableEq α] (key : α → PyVal)
    (rows : List α) (v : PyVal) (n : Nat) :
    (v, n) ∈ groupCounts key rows ↔
      (v ∈ rows.map key ∧ n = rows.countP (fun r => key r == v)) := by
  unfold groupCounts
  rw [List.mem_map]
  constructor
  · rintro ⟨k, hk, hkeq⟩
    simp only [Prod.mk.injEq] at hkeq
    obtain ⟨rfl, rfl⟩ := hkeq
    rw [(List.perm_insertionSort _ _).mem_iff, List.mem_dedup] at hk
    exact ⟨hk, rfl⟩
  · rintro ⟨hv, rfl⟩
    refine ⟨v, ?_, rfl⟩
    rw [(List.perm_insertionSort _ _).mem_iff, List.mem_dedup]
    exact hv

/-- C7: `severity_counts()` pairs each severity value present in the table
with the number of rows carrying it (and nothing else); on severities
[High, Critical, Low, High] it yields exactly the map
Critical ↦ 1, High ↦ 2, Low ↦ 1. `open_count()` counts the rows whose
status lies in {Open, In Progress}; on statuses [Open, Closed,
In Progress] it yields 2. -/
theorem C7_security_aggregates (db : IncidentsTable) (v : PyVal) (n : Nat) :
    ((v, n) ∈ (SecurityService.severity_counts db).1 ↔
      (v ∈ db.rows.map (fun r => r.severity) ∧
       n = db.rows.countP (fun r => r.severity == v))) ∧
    ((SecurityService.open_count db).1 =
      (db.rows.filter (fun r =>
        r.status == PyVal.pyStr "Open" ||
        r.status == PyVal.pyStr "In Progress")).length) ∧
    ((PyVal.pyStr "High", 2) ∈ (SecurityService.severity_counts
        ⟨[⟨1, 101, .pyStr "t1", .pyStr "High", .pyStr "Phishing", .pyStr "Open", .pyStr "d1"⟩,
          ⟨2, 102, .pyStr "t2", .pyStr "Critical", .pyStr "Malware", .pyStr "Open", .pyStr "d2"⟩,
          ⟨3, 103, .pyStr "t3", .pyStr "Low", .pyStr "DDoS", .pyStr "Open", .pyStr "d3"⟩,
          ⟨4, 104, .pyStr "t4", .pyStr "High", .pyStr "Malware", .pyStr "Open", .pyStr "d4"⟩], 5⟩).1 ∧
     (PyVal.pyStr "Critical", 1) ∈ (SecurityService.severity_counts
        ⟨[⟨1, 101, .pyStr "t1", .pyStr "High", .pyStr "Phishing", .pyStr "Open", .pyStr "d1"⟩,
          ⟨2, 102, .pyStr "t2", .pyStr "Critical", .pyStr "Malware", .pyStr "Open", .pyStr "d2"⟩,
          ⟨3, 103, .pyStr "t3", .pyStr "Low", .pyStr "DDoS", .pyStr "Open", .pyStr "d3"⟩,
          ⟨4, 104, .pyStr "t4", .pyStr "High", .pyStr "Malware", .pyStr "Open", .pyStr "d4"⟩], 5⟩).1 ∧
     (PyVal.pyStr "Low", 1) ∈ (SecurityService.severity_counts
        ⟨[⟨1, 101, .pyStr "t1", .pyStr "High", .pyStr "Phishing", .pyStr "Open", .pyStr "d1"⟩,
          ⟨2, 102, .pyStr "t2", .pyStr "Critical", .pyStr "Malware", .pyStr "Open", .pyStr "d2"⟩,
          ⟨3, 103, .pyStr "t3", .pyStr "Low", .pyStr "DDoS", .pyStr "Open", .pyStr "d3"⟩,
          ⟨4, 104, .pyStr "t4", .pyStr "High", .pyStr "Malware", .pyStr "Open", .pyStr "d4"⟩], 5⟩).1 ∧
     ((SecurityService.severity_counts
        ⟨[⟨1, 101, .pyStr "t1", .pyStr "High", .pyStr "Phishing", .pyStr "Open", .pyStr "d1"⟩,
          ⟨2, 102, .pyStr "t2", .pyStr "Critical", .pyStr "Malware", .pyStr "Open", .pyStr "d2"⟩,
          ⟨3, 103, .pyStr "t3", .pyStr "Low", .pyStr "DDoS", .pyStr "Open", .pyStr "d3"⟩,
          ⟨4, 104, .pyStr "t4", .pyStr "High", .pyStr "Malware", .pyStr "Open", .pyStr "d4"⟩], 5⟩).1).length = 3) ∧
    (SecurityService.open_count
        ⟨[⟨1, 101, .pyStr "t1", .pyStr "High", .pyStr "Phishing", .pyStr "Open", .pyStr "d1"⟩,
          ⟨2, 102, .pyStr "t2", .pyStr "Critical", .pyStr "Malware", .pyStr "Closed", .pyStr "d2"⟩,
          ⟨3, 103, .pyStr "t3", .pyStr "Low", .pyStr "DDoS", .pyStr "In Progress", .pyStr "d3"⟩], 4⟩).1 = 2 := by
  refine ⟨groupCounts_mem _ _ v n, ?_, by decide, ?_⟩
  · unfold SecurityService.open_count
    exact List.countP_eq_length_filter _ _
  · decide

/-- C5: CRUD round trip for a Record Access unit, shown on
`SecurityService`. `create` appends one row whose fields are the inputs
after `int()` coercion, and `all()` then contains it; `update` on an
existing primary id (primary-key uniqueness giving the `Nodup` ids
hypothesis) makes `all()` show the replaced fields with exactly one row
for that id; `update` on an absent id returns the state unchanged;
after `delete(id)`, `all()` contains no record with that id. -/
theorem C5_crud_round_trip (db : IncidentsTable) (i : Nat)
    (iv ts sev cat st d : PyVal) (n : Int)
    (hco : pyIntCoerce iv = some n) :
    (SecurityService.create_incident db iv ts sev cat st d =
        .ok ⟨db.rows ++ [⟨db.nextId, n, ts, sev, cat, st, d⟩], db.nextId + 1⟩ ∧
      ∀ db2, SecurityService.create_incident db iv ts sev cat st d = .ok db2 →
        (⟨db.nextId, n, ts, sev, cat, st, d⟩ : Incident) ∈
          (SecurityService.all db2).1) ∧
    ((db.rows.map (fun r => r.id)).Nodup → (∃ r0 ∈ db.rows, r0.id = i) →
      ∀ db3, SecurityService.update_incident db i iv ts sev cat st d = .ok db3 →
        ((⟨i, n, ts, sev, cat, st, d⟩ : Incident) ∈ (SecurityService.all db3).1 ∧
         (SecurityService.all db3).1.countP (fun r => r.id == i) = 1)) ∧
    ((∀ r ∈ db.rows, r.id ≠ i) →
      SecurityService.update_incident db i iv ts sev cat st d = .ok db) ∧
    (∀ r ∈ (SecurityService.all (SecurityService.delete_incident db i)).1,
      r.id ≠ i) := by
  refine ⟨⟨?_, ?_⟩, ?_, ?_, ?_⟩
  · simp [SecurityService.create_incident, hco]
  · intro db2 h
    simp only [SecurityService.create_incident, hco, Except.ok.injEq] at h
    simp only [SecurityService.all]
    rw [(ordByDesc_perm _ db2.rows).mem_iff, ← h]
    simp
  · intro hnodup ⟨r0, hr0, hr0i⟩ db3 h
    simp only [SecurityService.update_incident, hco, Except.ok.injEq] at h
    have hid : ∀ r : Incident,
        ((if r.id = i then
            (⟨r.id, n, ts, sev, cat, st, d⟩ : Incident)
          else r)).id = r.id := by
      intro r
      by_cases hri : r.id = i <;> simp [hri]
    constructor
    · simp only [SecurityService.all]
      rw [(ordByDesc_perm _ db3.rows).mem_iff, ← h]
      simp only [List.mem_map]
      exact ⟨r0, hr0, by simp [hr0i]⟩
    · simp only [SecurityService.all]
      rw [(ordByDesc_perm _ db3.rows).countP_eq, ← h]
      simp only [List.countP_map]
      have hcnt : db.rows.countP
          ((fun r : Incident => r.id == i) ∘ fun r =>
            if r.id = i then (⟨r.id, n, ts, sev, cat, st, d⟩ : Incident)
            else r) = db.rows.countP (fun r => r.id == i) := by
        refine List.countP_congr ?_
        intro x _
        simp [Function.comp, hid x]
      rw [hcnt]
      have : db.rows.countP (fun r => r.id == i) =
          List.count i (db.rows.map (fun r => r.id)) := by
        rw [List.count_eq_countP, List.countP_map]
        rfl
      rw [this]
      exact List.count_eq_one_of_mem hnodup
        (List.mem_map.mpr ⟨r0, hr0, hr0i⟩)
  · intro habs
    simp only [SecurityService.update_incident, hco, Except.ok.injEq]
    have : db.rows.map (fun r =>
        if r.id = i then (⟨r.id, n, ts, sev, cat, st, d⟩ : Incident) else r) =
        db.rows := by
      rw [List.map_congr_left (g := id) ?_, List.map_id]
      intro r hr
      simp [habs r hr]
    rw [this]
  · intro r hr
    simp only [SecurityService.all] at hr
    rw [(ordByDesc_perm _ _).mem_iff] at hr
    simp only [SecurityService.delete_incident] at hr
    have := (List.mem_filter.mp hr).2
    simpa using this

/-- C5 witness: a concrete create-then-all round trip, and a concrete
no-op update on an absent id. -/
theorem C5_crud_round_trip_witness :
    ((⟨1, 7, .pyStr "t2", .pyStr "High", .pyStr "Malware", .pyStr "Open",
        .pyStr "dd"⟩ : Incident) ∈
      (SecurityService.all
        ⟨[⟨1, 7, .pyStr "t2", .pyStr "High", .pyStr "Malware", .pyStr "Open",
           .pyStr "dd"⟩], 2⟩).1) ∧
    SecurityService.update_incident
        ⟨[⟨1, 101, .pyStr "t1", .pyStr "Low", .pyStr "DDoS", .pyStr "Open",
           .pyStr "d"⟩], 2⟩ 5
        (.pyInt 7) (.pyStr "t2") (.pyStr "High") (.pyStr "Malware")
        (.pyStr "Open") (.pyStr "dd") =
      .ok ⟨[⟨1, 101, .pyStr "t1", .pyStr "Low", .pyStr "DDoS", .pyStr "Open",
            .pyStr "d"⟩], 2⟩ := by
  constructor
  · exact (C5_crud_round_trip ⟨[], 1⟩ 1 (.pyInt 7) (.pyStr "t2")
      (.pyStr "High") (.pyStr "Malware") (.pyStr "Open") (.pyStr "dd") 7
      rfl).1.2 _ rfl
  · exact (C5_crud_round_trip _ 5 (.pyInt 7) (.pyStr "t2") (.pyStr "High")
      (.pyStr "Malware") (.pyStr "Open") (.pyStr "dd") 7 rfl).2.2.1
      (by decide)

/-- An operation of the Authentication Manager: a registration attempt or
a login attempt (`login` executes only a `SELECT`, so it never mutates;
`_create_table` is `CREATE TABLE IF NOT EXISTS`, a no-op on rows). -/
inductive AuthOp where
  | regOp (username password role : String) (salt : Nat)
  | loginOp (username password : String)
deriving DecidableEq, Repr

/-- Users-table state after one AuthManager operation. -/
def applyOp (db : UsersTable) : AuthOp → UsersTable
  | .regOp u p r s => (AuthManager.register db u p r s).2
  | .loginOp _ _ => db

/-- Users-table state after a sequence of AuthManager operations. -/
def applyOps (db : UsersTable) (ops : List AuthOp) : UsersTable :=
  ops.foldl applyOp db

/-- The role an operation supplies stays inside the documented
enumeration (`register` call sites omitting the argument get the Python
default `"user"`). -/
def opRoleOK : AuthOp → Prop
  | .regOp _ _ r _ => r = "user" ∨ r = "admin"
  | .loginOp _ _ => True

/-- C8 counterexample: `register` never validates the role, so a single
AuthManager operation persists a row whose role is outside
{user, admin} — registering with role `"superadmin"` succeeds and stores
that role verbatim. -/
theorem C8_counterexample :
    AuthManager.register ⟨[], 1⟩ "eve" "pw" "superadmin" 0 =
      (true,
       ⟨[⟨1, "eve", .bytesC (.ofHash (hashpw "pw" 0)), "superadmin"⟩], 2⟩) ∧
    ∀ r ∈ (AuthManager.register ⟨[], 1⟩ "eve" "pw" "superadmin" 0).2.rows,
      r.role ≠ "user" ∧ r.role ≠ "admin" := by
  constructor
  · decide
  · decide

/-- C8 amended: `register` persists the caller-supplied role string
unvalidated, with `"user"` only a call-site default; the enumeration
invariant therefore holds exactly for operation sequences whose
registrations all pass `"user"` or `"admin"` — under that restriction no
sequence of AuthManager operations can persist any other role. -/
theorem C8_role_invariant (ops : List AuthOp) (db : UsersTable)
    (hops : ∀ op ∈ ops, opRoleOK op)
    (hdb : ∀ r ∈ db.rows, r.role = "user" ∨ r.role = "admin") :
    ∀ r ∈ (applyOps db ops).rows, r.role = "user" ∨ r.role = "admin" := by
  induction ops generalizing db with
  | nil => exact hdb
  | cons op rest ih =>
    refine ih _ (fun o ho => hops o (List.mem_cons_of_mem _ ho)) ?_
    have hrole := hops _ (List.mem_cons_self op rest)
    cases op with
    | loginOp u p => exact hdb
    | regOp u p role s =>
      intro r hr
      simp only [applyOp] at hr
      by_cases hu : u = ""
      · simp only [AuthManager.register, hu] at hr
        exact hdb r (by simpa using hr)
      · by_cases hp : p = ""
        · simp only [AuthManager.register, hp] at hr
          exact hdb r (by simpa using hr)
        · by_cases ha : db.rows.any (fun x => x.username == u) = true
          · simp only [AuthManager.register, hu, hp, ha] at hr
            exact hdb r (by simpa [hu, hp] using hr)
          · have ha2 : db.rows.any (fun x => x.username == u) = false := by
              simpa using ha
            simp only [AuthManager.register, hu, hp, ha2] at hr
            rcases List.mem_append.mp (by simpa [hu, hp] using hr :
                r ∈ db.rows ++ [(⟨db.nextId, u,
                  .bytesC (.ofHash (hashpw p s)), role⟩ : UserRow)]) with h | h
            · exact hdb r h
            · rw [List.mem_singleton.mp h]
              exact hrole

/-- C8 amended witness: after a concrete sequence of registrations (and a
login) restricted to the documented roles, the row registered for alice
carries a documented role. -/
theorem C8_role_invariant_witness :
    (registeredRow ⟨[], 1⟩ "alice" "pw" "user" 1).role = "user" ∨
    (registeredRow ⟨[], 1⟩ "alice" "pw" "user" 1).role = "admin" :=
  C8_role_invariant
    [.regOp "alice" "pw" "user" 1, .regOp "root" "pw" "admin" 2,
     .loginOp "alice" "pw"] ⟨[], 1⟩
    (by
      intro op hop
      simp only [List.mem_cons, List.not_mem_nil, or_false] at hop
      rcases hop with rfl | rfl | rfl <;> simp [opRoleOK])
    (fun r hr => absurd hr (List.not_mem_nil r))
    (registeredRow ⟨[], 1⟩ "alice" "pw" "user" 1) (by decide)

theorem security_load_ok (rows : List CsvRow) :
    ∀ db : IncidentsTable,
      (∀ r ∈ rows, SecurityService.incidentFields r ≠ none) →
      ∃ db2 newRows, SecurityService.load_csv db (some rows) = .ok db2 ∧
        db2.rows = db.rows ++ newRows ∧ newRows.length = rows.length := by
  induction rows with
  | nil => exact fun db _ => ⟨db, [], rfl, by simp, rfl⟩
  | cons r rs ih =>
    intro db h
    obtain ⟨f, hf⟩ :=
      Option.ne_none_iff_exists.mp (h r (List.mem_cons_self r rs))
    obtain ⟨iid, ts, sev, cat, st, d⟩ := f
    obtain ⟨db2, nr, hload, hrows, hlen⟩ :=
      ih ⟨db.rows ++ [⟨db.nextId, iid, ts, sev, cat, st, d⟩], db.nextId + 1⟩
        (fun x hx => h x (List.mem_cons_of_mem _ hx))
    refine ⟨db2, ⟨db.nextId, iid, ts, sev, cat, st, d⟩ :: nr, ?_, ?_,
      by simp [hlen]⟩
    · show SecurityService.load_csv_rows db (r :: rs) = .ok db2
      unfold SecurityService.load_csv_rows
      rw [← hf]
      exact hload
    · rw [hrows]; simp

theorem security_load_err (good : List CsvRow) :
    ∀ (db : IncidentsTable) (bad : CsvRow) (rest : List CsvRow),
      (∀ r ∈ good, SecurityService.incidentFields r ≠ none) →
      SecurityService.incidentFields bad = none →
      ∃ dbe newRows,
        SecurityService.load_csv db (some (good ++ bad :: rest)) = .error dbe ∧
        dbe.rows = db.rows ++ newRows ∧ newRows.length = good.length := by
  induction good with
  | nil =>
    intro db bad rest _ hbad
    refine ⟨db, [], ?_, by simp, rfl⟩
    show SecurityService.load_csv_rows db (bad :: rest) = .error db
    unfold SecurityService.load_csv_rows
    rw [hbad]
  | cons r rs ih =>
    intro db bad rest h hbad
    obtain ⟨f, hf⟩ :=
      Option.ne_none_iff_exists.mp (h r (List.mem_cons_self r rs))
    obtain ⟨iid, ts, sev, cat, st, d⟩ := f
    obtain ⟨dbe, nr, hload, hrows, hlen⟩ :=
      ih ⟨db.rows ++ [⟨db.nextId, iid, ts, sev, cat, st, d⟩], db.nextId + 1⟩
        bad rest (fun x hx => h x (List.mem_cons_of_mem _ hx)) hbad
    refine ⟨dbe, ⟨db.nextId, iid, ts, sev, cat, st, d⟩ :: nr, ?_, ?_,
      by simp [hlen]⟩
    · show SecurityService.load_csv_rows db (r :: (rs ++ bad :: rest)) = .error dbe
      unfold SecurityService.load_csv_rows
      rw [← hf]
      exact hload
    · rw [hrows]; simp

theorem dataset_load_ok (rows : List CsvRow) :
    ∀ db : DatasetsTable,
      (∀ r ∈ rows, DatasetService.datasetFields r ≠ none) →
      ∃ db2 newRows, DatasetService.load_csv db (some rows) = .ok db2 ∧
        db2.rows = db.rows ++ newRows ∧ newRows.length = rows.length := by
  induction rows with
  | nil => exact fun db _ => ⟨db, [], rfl, by simp, rfl⟩
  | cons r rs ih =>
    intro db h
    obtain ⟨f, hf⟩ :=
      Option.ne_none_iff_exists.mp (h r (List.mem_cons_self r rs))
    obtain ⟨did, nm, rw0, cl, ub, ud⟩ := f
    obtain ⟨db2, nr, hload, hrows, hlen⟩ :=
      ih ⟨db.rows ++ [⟨db.nextId, did, nm, rw0, cl, ub, ud⟩], db.nextId + 1⟩
        (fun x hx => h x (List.mem_cons_of_mem _ hx))
    refine ⟨db2, ⟨db.nextId, did, nm, rw0, cl, ub, ud⟩ :: nr, ?_, ?_,
      by simp [hlen]⟩
    · show DatasetService.load_csv_rows db (r :: rs) = .ok db2
      unfold DatasetService.load_csv_rows
      rw [← hf]
      exact hload
    · rw [hrows]; simp

theorem dataset_load_err (good : List CsvRow) :
    ∀ (db : DatasetsTable) (bad : CsvRow) (rest : List CsvRow),
      (∀ r ∈ good, DatasetService.datasetFields r ≠ none) →
      DatasetService.datasetFields bad = none →
      ∃ dbe newRows,
        DatasetService.load_csv db (some (good ++ bad :: rest)) = .error dbe ∧
        dbe.rows = db.rows ++ newRows ∧ newRows.length = good.length := by
  induction good with
  | nil =>
    intro db bad rest _ hbad
    refine ⟨db, [], ?_, by simp, rfl⟩
    show DatasetService.load_csv_rows db (bad :: rest) = .error db
    unfold DatasetService.load_csv_rows
    rw [hbad]
  | cons r rs ih =>
    intro db bad rest h hbad
    obtain ⟨f, hf⟩ :=
      Option.ne_none_iff_exists.mp (h r (List.mem_cons_self r rs))
    obtain ⟨did, nm, rw0, cl, ub, ud⟩ := f
    obtain ⟨dbe, nr, hload, hrows, hlen⟩ :=
      ih ⟨db.rows ++ [⟨db.nextId, did, nm, rw0, cl, ub, ud⟩], db.nextId + 1⟩
        bad rest (fun x hx => h x (List.mem_cons_of_mem _ hx)) hbad
    refine ⟨dbe, ⟨db.nextId, did, nm, rw0, cl, ub, ud⟩ :: nr, ?_, ?_,
      by simp [hlen]⟩
    · show DatasetService.load_csv_rows db (r :: (rs ++ bad :: rest)) = .error dbe
      unfold DatasetService.load_csv_rows
      rw [← hf]
      exact hload
    · rw [hrows]; simp

theorem it_load_ok (rows : List CsvRow) :
    ∀ db : TicketsTable,
      (∀ r ∈ rows, ITService.ticketFields r ≠ none) →
      ∃ db2 newRows, ITService.load_csv db (some rows) = .ok db2 ∧
        db2.rows = db.rows ++ newRows ∧ newRows.length = rows.length := by
  induction rows with
  | nil => exact fun db _ => ⟨db, [], rfl, by simp, rfl⟩
  | cons r rs ih =>
    intro db h
    obtain ⟨f, hf⟩ :=
      Option.ne_none_iff_exists.mp (h r (List.mem_cons_self r rs))
    obtain ⟨tid, pr, d, st, asg, ca, rt⟩ := f
    obtain ⟨db2, nr, hload, hrows, hlen⟩ :=
      ih ⟨db.rows ++ [⟨db.nextId, tid, pr, d, st, asg, ca, rt⟩], db.nextId + 1⟩
        (fun x hx => h x (List.mem_cons_of_mem _ hx))
    refine ⟨db2, ⟨db.nextId, tid, pr, d, st, asg, ca, rt⟩ :: nr, ?_, ?_,
      by simp [hlen]⟩
    · show ITService.load_csv_rows db (r :: rs) = .ok db2
      unfold ITService.load_csv_rows
      rw [← hf]
      exact hload
    · rw [hrows]; simp

theorem it_load_err (good : List CsvRow) :
    ∀ (db : TicketsTable) (bad : CsvRow) (rest : List CsvRow),
      (∀ r ∈ good, ITService.ticketFields r ≠ none) →
      ITService.ticketFields bad = none →
      ∃ dbe newRows,
        ITService.load_csv db (some (good ++ bad :: rest)) = .error dbe ∧
        dbe.rows = db.rows ++ newRows ∧ newRows.length = good.length := by
  induction good with
  | nil =>
    intro db bad rest _ hbad
    refine ⟨db, [], ?_, by simp, rfl⟩
    show ITService.load_csv_rows db (bad :: rest) = .error db
    unfold ITService.load_csv_rows
    rw [hbad]
  | cons r rs ih =>
    intro db bad rest h hbad
    obtain ⟨f, hf⟩ :=
      Option.ne_none_iff_exists.mp (h r (List.mem_cons_self r rs))
    obtain ⟨tid, pr, d, st, asg, ca, rt⟩ := f
    obtain ⟨dbe, nr, hload, hrows, hlen⟩ :=
      ih ⟨db.rows ++ [⟨db.nextId, tid, pr, d, st, asg, ca, rt⟩], db.nextId + 1⟩
        bad rest (fun x hx => h x (List.mem_cons_of_mem _ hx)) hbad
    refine ⟨dbe, ⟨db.nextId, tid, pr, d, st, asg, ca, rt⟩ :: nr, ?_, ?_,
      by simp [hlen]⟩
    · show ITService.load_csv_rows db (r :: (rs ++ bad :: rest)) = .error dbe
      unfold ITService.load_csv_rows
      rw [← hf]
      exact hload
    · rw [hrows]; simp

/-- C1 counterexample: a malformed 3-record source whose third record has
a non-coercible `incident_id` (`"oops"`) makes the call fail with the
error surfaced — but the two records before it are already inserted and
stay, because each `INSERT` commits individually. The claim's
"no row from that call is inserted" is therefore false for this
malformed source. -/
theorem C1_counterexample :
    SecurityService.load_csv ⟨[], 1⟩
      (some
        [[("incident_id", .pyInt 101), ("timestamp", .pyStr "t1"),
          ("severity", .pyStr "High"), ("category", .pyStr "Phishing"),
          ("status", .pyStr "Open"), ("description", .pyStr "d1")],
         [("incident_id", .pyInt 102), ("timestamp", .pyStr "t2"),
          ("severity", .pyStr "Low"), ("category", .pyStr "Malware"),
          ("status", .pyStr "Open"), ("description", .pyStr "d2")],
         [("incident_id", .pyStr "oops"), ("timestamp", .pyStr "t3"),
          ("severity", .pyStr "Low"), ("category", .pyStr "DDoS"),
          ("status", .pyStr "Open"), ("description", .pyStr "d3")]]) =
      .error
        ⟨[⟨1, 101, .pyStr "t1", .pyStr "High", .pyStr "Phishing",
           .pyStr "Open", .pyStr "d1"⟩,
          ⟨2, 102, .pyStr "t2", .pyStr "Low", .pyStr "Malware",
           .pyStr "Open", .pyStr "d2"⟩], 3⟩ ∧
    ([⟨1, 101, .pyStr "t1", .pyStr "High", .pyStr "Phishing",
       .pyStr "Open", .pyStr "d1"⟩,
      ⟨2, 102, .pyStr "t2", .pyStr "Low", .pyStr "Malware",
       .pyStr "Open", .pyStr "d2"⟩] : List Incident) ≠ [] := by
  constructor
  · rfl
  · decide

/-- C1 amended: for each of the three bulk imports — a missing or
unparsable source, or a malformed first record (missing required column
or non-coercible declared-numeric field), fails the call with the error
surfaced and inserts nothing; a malformed later record fails the call
with exactly the well-formed records before it inserted; a fully
well-formed source inserts one row per record with the declared-numeric
fields coerced to integer — concretely, a well-formed 3-record source
yields exactly 3 new rows, a textual numeric cell `"103"` arriving as the
integer 103. -/
theorem C1_load_csv_spec :
    (∀ db : IncidentsTable, SecurityService.load_csv db none = .error db) ∧
    (∀ (db : IncidentsTable) good bad rest,
      (∀ r ∈ good, SecurityService.incidentFields r ≠ none) →
      SecurityService.incidentFields bad = none →
      ∃ dbe newRows,
        SecurityService.load_csv db (some (good ++ bad :: rest)) = .error dbe ∧
        dbe.rows = db.rows ++ newRows ∧ newRows.length = good.length) ∧
    (∀ (db : IncidentsTable) rows,
      (∀ r ∈ rows, SecurityService.incidentFields r ≠ none) →
      ∃ db2 newRows, SecurityService.load_csv db (some rows) = .ok db2 ∧
        db2.rows = db.rows ++ newRows ∧ newRows.length = rows.length) ∧
    (∀ db : DatasetsTable, DatasetService.load_csv db none = .error db) ∧
    (∀ (db : DatasetsTable) good bad rest,
      (∀ r ∈ good, DatasetService.datasetFields r ≠ none) →
      DatasetService.datasetFields bad = none →
      ∃ dbe newRows,
        DatasetService.load_csv db (some (good ++ bad :: rest)) = .error dbe ∧
        dbe.rows = db.rows ++ newRows ∧ newRows.length = good.length) ∧
    (∀ (db : DatasetsTable) rows,
      (∀ r ∈ rows, DatasetService.datasetFields r ≠ none) →
      ∃ db2 newRows, DatasetService.load_csv db (some rows) = .ok db2 ∧
        db2.rows = db.rows ++ newRows ∧ newRows.length = rows.length) ∧
    (∀ db : TicketsTable, ITService.load_csv db none = .error db) ∧
    (∀ (db : TicketsTable) good bad rest,
      (∀ r ∈ good, ITService.ticketFields r ≠ none) →
      ITService.ticketFields bad = none →
      ∃ dbe newRows,
        ITService.load_csv db (some (good ++ bad :: rest)) = .error dbe ∧
        dbe.rows = db.rows ++ newRows ∧ newRows.length = good.length) ∧
    (∀ (db : TicketsTable) rows,
      (∀ r ∈ rows, ITService.ticketFields r ≠ none) →
      ∃ db2 newRows, ITService.load_csv db (some rows) = .ok db2 ∧
        db2.rows = db.rows ++ newRows ∧ newRows.length = rows.length) ∧
    SecurityService.load_csv ⟨[], 1⟩
      (some
        [[("incident_id", .pyInt 101), ("timestamp", .pyStr "t1"),
          ("severity", .pyStr "High"), ("category", .pyStr "Phishing"),
          ("status", .pyStr "Open"), ("description", .pyStr "d1")],
         [("incident_id", .pyInt 102), ("timestamp", .pyStr "t2"),
          ("severity", .pyStr "Low"), ("category", .pyStr "Malware"),
          ("status", .pyStr "Open"), ("description", .pyStr "d2")],
         [("incident_id", .pyStr "103"), ("timestamp", .pyStr "t3"),
          ("severity", .pyStr "Low"), ("category", .pyStr "DDoS"),
          ("status", .pyStr "Open"), ("description", .pyStr "d3")]]) =
      .ok
        ⟨[⟨1, 101, .pyStr "t1", .pyStr "High", .pyStr "Phishing",
           .pyStr "Open", .pyStr "d1"⟩,
          ⟨2, 102, .pyStr "t2", .pyStr "Low", .pyStr "Malware",
           .pyStr "Open", .pyStr "d2"⟩,
          ⟨3, 103, .pyStr "t3", .pyStr "Low", .pyStr "DDoS",
           .pyStr "Open", .pyStr "d3"⟩], 4⟩ :=
  ⟨fun _ => rfl,
   fun db good bad rest h hbad => security_load_err good db bad rest h hbad,
   fun db rows h => security_load_ok rows db h,
   fun _ => rfl,
   fun db good bad rest h hbad => dataset_load_err good db bad rest h hbad,
   fun db rows h => dataset_load_ok rows db h,
   fun _ => rfl,
   fun db good bad rest h hbad => it_load_err good db bad rest h hbad,
   fun db rows h => it_load_ok rows db h,
   rfl⟩

/-- C1 amended witness: a first record missing the `timestamp` column
aborts a concrete import with nothing inserted, and a concrete
well-formed 1-record source inserts exactly one row. -/
theorem C1_load_csv_spec_witness :
    (∃ dbe newRows,
      SecurityService.load_csv ⟨[], 1⟩ (some [[("incident_id", .pyInt 1)]]) =
        .error dbe ∧
      dbe.rows = (⟨[], 1⟩ : IncidentsTable).rows ++ newRows ∧
      newRows.length = ([] : List CsvRow).length) ∧
    (∃ db2 newRows,
      SecurityService.load_csv ⟨[], 1⟩
        (some [[("incident_id", .pyInt 101), ("timestamp", .pyStr "t1"),
                ("severity", .pyStr "High"), ("category", .pyStr "Phishing"),
                ("status", .pyStr "Open"), ("description", .pyStr "d1")]]) =
        .ok db2 ∧
      db2.rows = (⟨[], 1⟩ : IncidentsTable).rows ++ newRows ∧
      newRows.length = 1) :=
  ⟨C1_load_csv_spec.2.1 ⟨[], 1⟩ [] [("incident_id", .pyInt 1)] []
    (fun r hr => absurd hr (List.not_mem_nil r)) (by decide),
   C1_load_csv_spec.2.2.1 ⟨[], 1⟩ _
     (fun r hr => by
       rw [List.mem_singleton.mp hr]
       decide)⟩
